import Mathlib

/-!
Verification of the state-poller and resource-lookup logic of the
terraform-provider-aws sources (networkmonitor monitor, kms replica key,
ssoadmin application assignment, ec2 prefix list data source).

Remote calls are shallowly embedded: the response the remote control plane
would produce is a parameter of each function, so every definition is a pure,
executable function of the sources' control flow over that response.
-/

namespace AwsProvider

/-- Remote-API error kinds distinguished by the sources.  Each Go
`errs.IsA[*T]` check on a sentinel exception type becomes a constructor
test here. -/
inductive AwsError where
  | resourceNotFoundException
  | notFoundException
  | kmsInvalidState (msg : String)
  | invalidPrefixListIdNotFound
  | other (msg : String)
  deriving Repr, DecidableEq

/-- Errors produced by the provider's own find helpers:
`retry.NotFoundError` (wrapping the remote error), `tfresource.EmptyResultError`,
`tfresource.TooManyResultsError`, or a remote error passed through unchanged. -/
inductive TfError where
  | notFoundError (last : AwsError)
  | emptyResult
  | tooManyResults (count : Nat)
  | aws (e : AwsError)
  deriving Repr, DecidableEq

/-- `tfresource.NotFound`: true exactly when the error is a `retry.NotFoundError`. -/
def tfresourceNotFound : TfError → Bool
  | .notFoundError _ => true
  | _ => false

/-- Result of one remote SDK call as seen by a Go caller: either an error, or
a success whose output pointer may still be nil (`ok none`). -/
inductive ApiResult (α : Type) where
  | ok (output : Option α)
  | err (e : AwsError)
  deriving Repr, DecidableEq

/-- The fields of `networkmonitor.GetMonitorOutput` the sources consume:
the monitor's name and its `State` label. -/
structure GetMonitorOutput where
  monitorName : String
  state : String
  deriving Repr, DecidableEq

/-- `findMonitorByName` (monitor.go): classify the `GetMonitor` response.
A `ResourceNotFoundException` becomes a `retry.NotFoundError`; other errors
pass through; a nil output with nil error becomes an `EmptyResultError`.
Returned as the Go `(output, err)` pair. -/
def findMonitorByName (resp : ApiResult GetMonitorOutput) :
    Option GetMonitorOutput × Option TfError :=
  match resp with
  | .err e =>
    if e = .resourceNotFoundException then
      (none, some (.notFoundError e))
    else
      (none, some (.aws e))
  | .ok none => (none, some .emptyResult)
  | .ok (some output) => (some output, none)

/-- One result of a `retry.StateRefreshFunc`: the Go triple
`(result any, state string, err error)`. -/
structure RefreshResult (α : Type) where
  snapshot : Option α
  label : String
  err : Option TfError
  deriving Repr, DecidableEq

/-- `statusMonitor` (monitor.go): the refresh function for one poll step,
applied to the remote response of that step's `GetMonitor` call.
`tfresource.NotFound` errors collapse to `(nil, "", nil)`; other errors are
forwarded as `(nil, "", err)`; otherwise the monitor's `State` is the label.
The `(nil, nil)` case from `findMonitorByName` cannot occur (see
`findMonitorByName_exactlyOne`); the Go code would dereference nil there. -/
def statusMonitor (resp : ApiResult GetMonitorOutput) : RefreshResult GetMonitorOutput :=
  match findMonitorByName resp with
  | (_, some e) => if tfresourceNotFound e then ⟨none, "", none⟩ else ⟨none, "", some e⟩
  | (some output, none) => ⟨some output, output.state, none⟩
  | (none, none) => ⟨none, "", none⟩

/-- A poll configuration (spec section 3): pending labels, target labels,
total timeout and minimum inter-poll delay.  Durations are in seconds. -/
structure PollConfig where
  pending : List String
  target : List String
  timeout : Nat
  minDelay : Nat
  deriving Repr, DecidableEq

/-- Outcome of one poll, following the spec's terminal states: success with
the final snapshot, fetch error, unrecognized state, timeout, or
cancellation.  Each outcome records the poll-relative return time (seconds)
and the number of fetches issued.  `outOfFuel` is the artifact of the fuelled
loop and is never reached with the fuel `poll` supplies. -/
inductive PollResult (α : Type) where
  | success (snapshot : Option α) (time : Nat) (fetches : Nat)
  | fetchError (e : TfError) (time : Nat) (fetches : Nat)
  | unrecognized (label : String) (time : Nat) (fetches : Nat)
  | timedOut (time : Nat) (fetches : Nat)
  | cancelled (time : Nat) (fetches : Nat)
  | outOfFuel
  deriving Repr, DecidableEq

/-- Whether the caller's cancellation signal (fires at time `c`, if ever) has
fired by time `t`. -/
def cancelFired : Option Nat → Nat → Bool
  | none, _ => false
  | some c, t => decide (c ≤ t)

/-- The spec's success condition for one refresh result: the label is in the
target set, or — the deletion-by-absence convention of spec sections 8 and 9 —
the target set is empty and the snapshot is absent. -/
def SuccessCond (cfg : PollConfig) (r : RefreshResult α) : Prop :=
  r.label ∈ cfg.target ∨ (cfg.target = [] ∧ r.snapshot = none)

instance (cfg : PollConfig) (r : RefreshResult α) : Decidable (SuccessCond cfg r) := by
  unfold SuccessCond
  have : Decidable (r.snapshot = none) := by
    cases h : r.snapshot
    · exact isTrue rfl
    · exact isFalse (by simp)
  infer_instance

/-- Modelled from the spec: the generic state poller
(`retry.StateChangeConf.WaitForStateContext`) is not among the sources, so its
loop is modelled from the spec's contract (section 4.1).  `refresh i` is the
result of the `i`-th invocation of the refresh function; `t` is the elapsed
time and `i` the number of fetches issued so far.  At each iteration boundary
the cancellation signal is checked first, then — on retries — the remaining
budget against the deadline; then the fetch runs: a fetch error is fatal at
once, a target label (or absence with an empty target set) succeeds at once,
a pending label sleeps the minimum delay and retries, and any other label is
an unrecognized state surfaced at once.  `fuel` bounds the recursion only. -/
def pollLoop (cfg : PollConfig) (refresh : Nat → RefreshResult α)
    (cancelAt : Option Nat) : Nat → Nat → Nat → PollResult α
  | 0, _, _ => .outOfFuel
  | fuel + 1, t, i =>
    if cancelFired cancelAt t then .cancelled t i
    else if 0 < i ∧ cfg.timeout ≤ t then .timedOut t i
    else
      match (refresh i).err with
      | some e => .fetchError e t (i + 1)
      | none =>
        if SuccessCond cfg (refresh i) then .success (refresh i).snapshot t (i + 1)
        else if (refresh i).label ∈ cfg.pending then
          pollLoop cfg refresh cancelAt fuel (t + cfg.minDelay) (i + 1)
        else .unrecognized (refresh i).label t (i + 1)

/-- Fuel that always outlasts the deadline: one iteration per minimum delay
within the timeout, plus the first fetch and the final budget check. -/
def pollFuel (cfg : PollConfig) : Nat :=
  cfg.timeout / max cfg.minDelay 1 + 2

/-- Modelled from the spec: one complete poll, starting at time 0 with no
fetches issued. -/
def poll (cfg : PollConfig) (refresh : Nat → RefreshResult α)
    (cancelAt : Option Nat) : PollResult α :=
  pollLoop cfg refresh cancelAt (pollFuel cfg) 0 0

/-- The CloudWatch Network Monitor monitor states used by the wait
configurations (`awstypes.MonitorState`). -/
def monitorStatePending : String := "PENDING"

def monitorStateActive : String := "ACTIVE"

def monitorStateInactive : String := "INACTIVE"

def monitorStateDeleting : String := "DELETING"

/-- The `retry.StateChangeConf` of `waitMonitorReady` (monitor.go): pending
`PENDING`, targets `ACTIVE`/`INACTIVE`, timeout 10 minutes, minimum delay
10 seconds. -/
def waitMonitorReadyConf : PollConfig :=
  { pending := [monitorStatePending]
    target := [monitorStateActive, monitorStateInactive]
    timeout := 600
    minDelay := 10 }

/-- The `retry.StateChangeConf` of `waitMonitorDeleted` (monitor.go): pending
`DELETING`/`ACTIVE`/`INACTIVE`, empty target set (deletion is confirmed by
absence), timeout 10 minutes, minimum delay 10 seconds. -/
def waitMonitorDeletedConf : PollConfig :=
  { pending := [monitorStateDeleting, monitorStateActive, monitorStateInactive]
    target := []
    timeout := 600
    minDelay := 10 }

/-- `waitMonitorReady` (monitor.go): poll with `statusMonitor` as the refresh
function, where `resp i` is the remote `GetMonitor` response seen by the
`i`-th fetch. -/
def waitMonitorReady (resp : Nat → ApiResult GetMonitorOutput)
    (cancelAt : Option Nat) : PollResult GetMonitorOutput :=
  poll waitMonitorReadyConf (fun i => statusMonitor (resp i)) cancelAt

/-- `waitMonitorDeleted` (monitor.go): poll with `statusMonitor` as the
refresh function and an empty target set. -/
def waitMonitorDeleted (resp : Nat → ApiResult GetMonitorOutput)
    (cancelAt : Option Nat) : PollResult GetMonitorOutput :=
  poll waitMonitorDeletedConf (fun i => statusMonitor (resp i)) cancelAt

/-- Split a character list at every occurrence of `c` (the list-level core of
splitting a string on the resource-ID separator). -/
def splitOnChar (c : Char) : List Char → List (List Char)
  | [] => [[]]
  | ch :: rest =>
    match splitOnChar c rest with
    | [] => [[]]
    | s :: ss => if ch = c then [] :: s :: ss else (ch :: s) :: ss

/-- Join character lists with the separator `c` between them. -/
def joinWithChar (c : Char) : List (List Char) → List Char
  | [] => []
  | [s] => s
  | s :: ss => s ++ c :: joinWithChar c (ss)

/-- Modelled from the spec: `intflex.FlattenResourceId` is not among the
sources.  Per its call site in application_assignment.go it joins the ID
parts with the composite resource-ID separator (a comma) after checking the
part count and, when empty parts are not allowed, that no part is empty.
Returns the Go `(id, err)` pair; on a failed check the ID is empty. -/
def flattenResourceId (idParts : List String) (partCount : Nat)
    (allowEmptyPart : Bool) : String × Option TfError :=
  if idParts.length ≠ partCount then
    ("", some (.aws (.other "unexpected number of ID parts")))
  else if !allowEmptyPart && idParts.any (fun p => p = "") then
    ("", some (.aws (.other "empty ID part")))
  else
    (⟨joinWithChar ',' (idParts.map String.data)⟩, none)

/-- Modelled from the spec: `intflex.ExpandResourceId` is not among the
sources.  It splits the composite ID on the separator and checks that the
number of parts matches `partCount` (and that no part is empty when empty
parts are not allowed). -/
def expandResourceId (id : String) (partCount : Nat) (allowEmptyPart : Bool) :
    Except TfError (List String) :=
  let idParts := (splitOnChar ',' id.data).map String.mk
  if idParts.length ≤ 1 then
    .error (.aws (.other "unexpected format for ID, expected more than one part"))
  else if idParts.length ≠ partCount then
    .error (.aws (.other "unexpected format for ID, wrong number of parts"))
  else if !allowEmptyPart && idParts.any (fun p => p = "") then
    .error (.aws (.other "empty ID part"))
  else
    .ok idParts

/-- `applicationAssignmentIDPartCount` (application_assignment.go). -/
def applicationAssignmentIDPartCount : Nat := 3

/-- The ID parts flattened by the application-assignment Create
(application_assignment.go): the composite ID Create stores in state.  The
Go code discards the error (`id, _ := intflex.FlattenResourceId(...)`). -/
def applicationAssignmentCreateID (applicationARN principalID principalType : String) :
    String :=
  (flattenResourceId [applicationARN, principalID, principalType]
    applicationAssignmentIDPartCount false).1

/-- `ssoadmin.DescribeApplicationAssignmentInput` as built by
`findApplicationAssignmentByID`. -/
structure DescribeApplicationAssignmentInput where
  applicationArn : String
  principalId : String
  principalType : String
  deriving Repr, DecidableEq

/-- The fields of `ssoadmin.DescribeApplicationAssignmentOutput` the sources
consume. -/
structure DescribeApplicationAssignmentOutput where
  applicationArn : String
  principalId : String
  principalType : String
  deriving Repr, DecidableEq

/-- The lookup input `findApplicationAssignmentByID` derives from the
composite ID: expand into three parts, then address them positionally
(`parts[0]`, `parts[1]`, `parts[2]`). -/
def applicationAssignmentLookupInput (id : String) :
    Except TfError DescribeApplicationAssignmentInput :=
  match expandResourceId id applicationAssignmentIDPartCount false with
  | .error e => .error e
  | .ok parts => .ok ⟨parts.getD 0 "", parts.getD 1 "", parts.getD 2 ""⟩

/-- `findApplicationAssignmentByID` (application_assignment.go): expand the
ID (propagating the expansion error), call `DescribeApplicationAssignment`
with the parts, map `ResourceNotFoundException` to a `retry.NotFoundError`,
pass other errors through, and map a nil output with nil error to an
`EmptyResultError`.  `call` is the remote response for a given input.
Returned as the Go `(output, err)` pair. -/
def findApplicationAssignmentByID (id : String)
    (call : DescribeApplicationAssignmentInput → ApiResult DescribeApplicationAssignmentOutput) :
    Option DescribeApplicationAssignmentOutput × Option TfError :=
  match applicationAssignmentLookupInput id with
  | .error e => (none, some e)
  | .ok input =>
    match call input with
    | .err e =>
      if e = .resourceNotFoundException then
        (none, some (.notFoundError e))
      else
        (none, some (.aws e))
    | .ok none => (none, some .emptyResult)
    | .ok (some out) => (some out, none)

/-- The fields of `awstypes.PrefixList` the sources consume. -/
structure PrefixList where
  prefixListId : String
  prefixListName : String
  cidrs : List String
  deriving Repr, DecidableEq

/-- `FindPrefixLists` (vpc_prefix_list_data_source.go), as the fold over the
paginator's successive pages: an `InvalidPrefixListId.NotFound` error code
becomes a `retry.NotFoundError`, any other page error is returned as is, and
otherwise the pages' prefix lists are accumulated in order. -/
def findPrefixListsAux (acc : List PrefixList) :
    List (Except AwsError (List PrefixList)) →
    Option (List PrefixList) × Option TfError
  | [] => (some acc, none)
  | .error e :: _ =>
    if e = .invalidPrefixListIdNotFound then
      (none, some (.notFoundError e))
    else
      (none, some (.aws e))
  | .ok page :: rest => findPrefixListsAux (acc ++ page) rest

/-- `FindPrefixLists` run from an empty accumulator, where `pages` is the
sequence of responses the paginator receives. -/
def FindPrefixLists (pages : List (Except AwsError (List PrefixList))) :
    Option (List PrefixList) × Option TfError :=
  findPrefixListsAux [] pages

/-- Modelled from the spec: `tfresource.AssertSingleValueResult` is not among
the sources.  Per the spec's error taxonomy for singular lookups it demands
exactly one element: an empty slice is an empty-result error, more than one
element is a too-many-results error. -/
def assertSingleValueResult : List α → Option α × Option TfError
  | [] => (none, some .emptyResult)
  | [x] => (some x, none)
  | xs => (none, some (.tooManyResults xs.length))

/-- `FindPrefixList` (vpc_prefix_list_data_source.go): propagate any error
from `FindPrefixLists`, otherwise assert a single result. -/
def FindPrefixList (pages : List (Except AwsError (List PrefixList))) :
    Option PrefixList × Option TfError :=
  match FindPrefixLists pages with
  | (_, some e) => (none, some e)
  | (xs, none) => assertSingleValueResult (xs.getD [])

/-- Whether `pre` is an initial segment of `l`. -/
def listStartsWith : List Char → List Char → Bool
  | _, [] => true
  | [], _ :: _ => false
  | a :: as, b :: bs => a = b && listStartsWith as bs

/-- Whether `sub` occurs contiguously inside `l`. -/
def listContainsSub : List Char → List Char → Bool
  | [], sub => sub.isEmpty
  | a :: as, sub => listStartsWith (a :: as) sub || listContainsSub as sub

/-- Substring test on strings, the check behind
`errs.IsAErrorMessageContains`. -/
def errMessageContains (msg sub : String) : Bool :=
  listContainsSub msg.data sub.data

/-- `errs.IsAErrorMessageContains[*awstypes.KMSInvalidStateException](err,
"is pending deletion")` (replica_key.go): a KMS invalid-state error whose
message contains the pending-deletion text. -/
def isKMSInvalidStatePendingDeletion : AwsError → Bool
  | .kmsInvalidState msg => errMessageContains msg "is pending deletion"
  | _ => false

/-- `(*monitorResource).Delete` (monitor.go), as the list of error
diagnostics it adds: a `ResourceNotFoundException` from `DeleteMonitor` is
success; any other delete error is a diagnostic; otherwise the outcome of
`waitMonitorDeleted` (over the subsequent `GetMonitor` responses `resp`)
decides, a non-success wait adding a diagnostic. -/
def monitorResourceDelete (deleteResp : Except AwsError Unit)
    (resp : Nat → ApiResult GetMonitorOutput) : List String :=
  match deleteResp with
  | .error e =>
    if e = .resourceNotFoundException then []
    else ["deleting CloudWatch Network Monitor Monitor"]
  | .ok _ =>
    match waitMonitorDeleted resp none with
    | .success _ _ _ => []
    | _ => ["waiting for CloudWatch Network Monitor Monitor delete"]

/-- `resourceReplicaKeyDelete` (replica_key.go), as the list of error
diagnostics: a `NotFoundException` from `ScheduleKeyDeletion`, or a
`KMSInvalidStateException` whose message contains "is pending deletion", is
success; any other error is a diagnostic; otherwise `waitKeyDeleted` (not
among the sources, so its error outcome is the parameter `waitErr`) decides. -/
def resourceReplicaKeyDelete (schedResp : Except AwsError Unit)
    (waitErr : Option TfError) : List String :=
  match schedResp with
  | .error e =>
    if e = .notFoundException then []
    else if isKMSInvalidStatePendingDeletion e then []
    else ["deleting KMS Replica Key"]
  | .ok _ =>
    match waitErr with
    | some _ => ["waiting for KMS Replica Key delete"]
    | none => []

/-- `(*applicationAssignmentResource).Delete` (application_assignment.go), as
the list of error diagnostics: a `ResourceNotFoundException` from
`DeleteApplicationAssignment` is success; any other error is a diagnostic;
there is no wait. -/
def applicationAssignmentDelete (deleteResp : Except AwsError Unit) : List String :=
  match deleteResp with
  | .ok _ => []
  | .error e =>
    if e = .resourceNotFoundException then []
    else ["deleting Application Assignment"]

/-- The Go find-helper contract: exactly one of the result pointer and the
error is nil. -/
def ExactlyOneOf (p : Option α × Option TfError) : Prop :=
  (p.1 ≠ none ∧ p.2 = none) ∨ (p.1 = none ∧ p.2 ≠ none)

section PollLoopLemmas

variable {α : Type} (cfg : PollConfig) (refresh : Nat → RefreshResult α)
  (cancelAt : Option Nat)

lemma pollLoop_step_cancelled (fuel t i : Nat)
    (hc : cancelFired cancelAt t = true) :
    pollLoop cfg refresh cancelAt (fuel + 1) t i = .cancelled t i := by
  simp [pollLoop, hc]

lemma pollLoop_step_timedOut (fuel t i : Nat)
    (hc : cancelFired cancelAt t = false) (ht : 0 < i ∧ cfg.timeout ≤ t) :
    pollLoop cfg refresh cancelAt (fuel + 1) t i = .timedOut t i := by
  simp [pollLoop, hc, ht]

lemma pollLoop_step_fetchError (fuel t i : Nat) {e : TfError}
    (hc : cancelFired cancelAt t = false) (ht : ¬(0 < i ∧ cfg.timeout ≤ t))
    (he : (refresh i).err = some e) :
    pollLoop cfg refresh cancelAt (fuel + 1) t i = .fetchError e t (i + 1) := by
  simp [pollLoop, hc, ht, he]

lemma pollLoop_step_success (fuel t i : Nat)
    (hc : cancelFired cancelAt t = false) (ht : ¬(0 < i ∧ cfg.timeout ≤ t))
    (he : (refresh i).err = none) (hs : SuccessCond cfg (refresh i)) :
    pollLoop cfg refresh cancelAt (fuel + 1) t i =
      .success (refresh i).snapshot t (i + 1) := by
  simp [pollLoop, hc, ht, he, hs]

lemma pollLoop_step_unrecognized (fuel t i : Nat)
    (hc : cancelFired cancelAt t = false) (ht : ¬(0 < i ∧ cfg.timeout ≤ t))
    (he : (refresh i).err = none) (hs : ¬SuccessCond cfg (refresh i))
    (hp : (refresh i).label ∉ cfg.pending) :
    pollLoop cfg refresh cancelAt (fuel + 1) t i =
      .unrecognized (refresh i).label t (i + 1) := by
  simp [pollLoop, hc, ht, he, hs, hp]

lemma pollLoop_step_pending (fuel t i : Nat)
    (hc : cancelFired cancelAt t = false) (ht : ¬(0 < i ∧ cfg.timeout ≤ t))
    (he : (refresh i).err = none) (hs : ¬SuccessCond cfg (refresh i))
    (hp : (refresh i).label ∈ cfg.pending) :
    pollLoop cfg refresh cancelAt (fuel + 1) t i =
      pollLoop cfg refresh cancelAt fuel (t + cfg.minDelay) (i + 1) := by
  simp [pollLoop, hc, ht, he, hs, hp]

/-- Running the loop across `k` consecutive pending-classified fetches only
advances the clock and the fetch counter, provided each of those entries is
within budget. -/
lemma pollLoop_skip_pending :
    ∀ (k fuel t i : Nat), k ≤ fuel →
    (∀ j, j < k → (refresh (i + j)).err = none ∧
      (refresh (i + j)).label ∈ cfg.pending ∧ ¬SuccessCond cfg (refresh (i + j))) →
    (∀ j, j < k → 0 < i + j → t + j * cfg.minDelay < cfg.timeout) →
    pollLoop cfg refresh none fuel t i =
      pollLoop cfg refresh none (fuel - k) (t + k * cfg.minDelay) (i + k) := by
  intro k
  induction k with
  | zero => intro fuel t i _ _ _; simp
  | succ k ih =>
    intro fuel t i hfuel hpend htime
    obtain ⟨fuel, rfl⟩ : ∃ f, fuel = f + 1 := ⟨fuel - 1, by omega⟩
    have h0 := hpend 0 (Nat.succ_pos k)
    rw [Nat.add_zero] at h0
    have hstep := pollLoop_step_pending cfg refresh none fuel t i
      (by simp [cancelFired])
      (by
        rintro ⟨hi, hti⟩
        exact absurd (htime 0 (Nat.succ_pos k) (by omega)) (by omega))
      h0.1 h0.2.2 h0.2.1
    rw [hstep]
    have ih' := ih fuel (t + cfg.minDelay) (i + 1) (by omega)
      (by
        intro j hj
        have := hpend (j + 1) (by omega)
        rwa [show i + (j + 1) = i + 1 + j by omega] at this)
      (by
        intro j hj _
        have hj1 := htime (j + 1) (by omega) (by omega)
        have hsm : (j + 1) * cfg.minDelay = j * cfg.minDelay + cfg.minDelay :=
          Nat.succ_mul j cfg.minDelay
        omega)
    rw [ih']
    have harith : t + cfg.minDelay + k * cfg.minDelay = t + (k + 1) * cfg.minDelay := by
      have : (k + 1) * cfg.minDelay = k * cfg.minDelay + cfg.minDelay :=
        Nat.succ_mul k cfg.minDelay
      omega
    rw [harith, show i + 1 + k = i + (k + 1) by omega,
      show fuel - k = fuel + 1 - (k + 1) by omega]

/-- If every fetch is classified as pending, the loop ends in a timeout whose
return time lies in the window `[timeout, timeout + minDelay]`. -/
lemma pollLoop_all_pending_times_out
    (hall : ∀ j, (refresh j).err = none ∧ (refresh j).label ∈ cfg.pending ∧
      ¬SuccessCond cfg (refresh j)) :
    ∀ (fuel t i : Nat),
    ((0 < i ∧ t ≤ cfg.timeout + cfg.minDelay) ∨ (i = 0 ∧ t = 0)) →
    (cfg.timeout + cfg.minDelay < t + fuel * cfg.minDelay) →
    ∃ T n, pollLoop cfg refresh none fuel t i = .timedOut T n ∧
      cfg.timeout ≤ T ∧ T ≤ cfg.timeout + cfg.minDelay := by
  intro fuel
  induction fuel with
  | zero => intro t i hinv hfuel; exfalso; rcases hinv with ⟨_, h⟩ | ⟨_, h⟩ <;> omega
  | succ fuel ih =>
    intro t i hinv hfuel
    by_cases hstop : 0 < i ∧ cfg.timeout ≤ t
    · refine ⟨t, i, pollLoop_step_timedOut cfg refresh none fuel t i
        (by simp [cancelFired]) hstop, hstop.2, ?_⟩
      rcases hinv with ⟨_, h⟩ | ⟨hi, _⟩
      · exact h
      · omega
    · have h0 := hall i
      rw [pollLoop_step_pending cfg refresh none fuel t i (by simp [cancelFired]) hstop
        h0.1 h0.2.2 h0.2.1]
      refine ih (t + cfg.minDelay) (i + 1) ?_ ?_
      · left
        refine ⟨Nat.succ_pos i, ?_⟩
        rcases hinv with ⟨hi, _⟩ | ⟨_, ht0⟩
        · have : t < cfg.timeout := by
            rcases Nat.lt_or_ge t cfg.timeout with h | h
            · exact h
            · exact absurd ⟨hi, h⟩ hstop
          omega
        · omega
      · have : (fuel + 1) * cfg.minDelay = fuel * cfg.minDelay + cfg.minDelay :=
          Nat.succ_mul fuel cfg.minDelay
        omega

end PollLoopLemmas

lemma splitOnChar_ne_nil (c : Char) : ∀ l, splitOnChar c l ≠ [] := by
  intro l
  cases l with
  | nil => simp [splitOnChar]
  | cons ch rest =>
    simp only [splitOnChar]
    cases splitOnChar c rest with
    | nil => simp
    | cons s ss =>
      by_cases h : ch = c <;> simp [h]

lemma splitOnChar_no_sep (c : Char) :
    ∀ s : List Char, c ∉ s → splitOnChar c s = [s] := by
  intro s
  induction s with
  | nil => intro _; rfl
  | cons ch rest ih =>
    intro hs
    have hch : ch ≠ c := fun h => hs (h ▸ List.mem_cons_self ch rest)
    have hrest : c ∉ rest := fun h => hs (List.mem_cons_of_mem ch h)
    simp only [splitOnChar, ih hrest, if_neg hch]

lemma splitOnChar_append_sep (c : Char) :
    ∀ s tail : List Char, c ∉ s →
    splitOnChar c (s ++ c :: tail) = s :: splitOnChar c tail := by
  intro s
  induction s with
  | nil =>
    intro tail _
    obtain ⟨u, us, hu⟩ : ∃ u us, splitOnChar c tail = u :: us := by
      cases h : splitOnChar c tail with
      | nil => exact absurd h (splitOnChar_ne_nil c tail)
      | cons u us => exact ⟨u, us, rfl⟩
    simp [splitOnChar, hu]
  | cons ch rest ih =>
    intro tail hs
    have hch : ch ≠ c := fun h => hs (h ▸ List.mem_cons_self ch rest)
    have hrest : c ∉ rest := fun h => hs (List.mem_cons_of_mem ch h)
    simp only [List.cons_append, splitOnChar, List.append_eq, ih tail hrest, if_neg hch]

/-- Splitting is a left inverse of joining, for nonempty part lists whose
parts do not contain the separator. -/
lemma splitOnChar_joinWithChar (c : Char) :
    ∀ parts : List (List Char), parts ≠ [] →
    (∀ p ∈ parts, c ∉ p) →
    splitOnChar c (joinWithChar c parts) = parts := by
  intro parts
  induction parts with
  | nil => intro h; exact absurd rfl h
  | cons s ss ih =>
    intro _ hfree
    cases ss with
    | nil => exact splitOnChar_no_sep c s (hfree s (by simp))
    | cons s2 ss2 =>
      have hjoin : joinWithChar c (s :: s2 :: ss2) =
          s ++ c :: joinWithChar c (s2 :: ss2) := rfl
      rw [hjoin, splitOnChar_append_sep c s _ (hfree s (by simp)),
        ih (by simp) (fun p hp => hfree p (by simp [hp]))]

lemma pollFuel_ge (cfg : PollConfig) (k : Nat) (hd : 0 < cfg.minDelay)
    (htime : k = 0 ∨ k * cfg.minDelay < cfg.timeout) : k + 2 ≤ pollFuel cfg := by
  unfold pollFuel
  have hmax : max cfg.minDelay 1 = cfg.minDelay := Nat.max_eq_left hd
  rw [hmax]
  have h0 : 0 ≤ cfg.timeout / cfg.minDelay := Nat.zero_le _
  rcases htime with rfl | h
  · omega
  · have hk : k ≤ cfg.timeout / cfg.minDelay :=
      (Nat.le_div_iff_mul_le hd).mpr (Nat.le_of_lt h)
    omega

/-- If the first `k` fetches are pending-classified and the `k`-th fetch hits
the success condition within budget, the poll succeeds at time `k * minDelay`
with `k + 1` fetches, carrying the `k`-th snapshot. -/
lemma poll_success_at {α : Type} (cfg : PollConfig) (refresh : Nat → RefreshResult α)
    (k : Nat) (hd : 0 < cfg.minDelay)
    (hpend : ∀ j, j < k → (refresh j).err = none ∧ (refresh j).label ∈ cfg.pending ∧
      ¬SuccessCond cfg (refresh j))
    (hke : (refresh k).err = none) (hks : SuccessCond cfg (refresh k))
    (htime : k = 0 ∨ k * cfg.minDelay < cfg.timeout) :
    poll cfg refresh none = .success (refresh k).snapshot (k * cfg.minDelay) (k + 1) := by
  have hfuel := pollFuel_ge cfg k hd htime
  have hskip := pollLoop_skip_pending cfg refresh k (pollFuel cfg) 0 0 (by omega)
    (fun j hj => by simpa using hpend j hj)
    (fun j hj hij => by
      rcases htime with rfl | h
      · omega
      · have hlt : j * cfg.minDelay < k * cfg.minDelay :=
          mul_lt_mul_of_pos_right hj hd
        omega)
  unfold poll
  rw [hskip]
  obtain ⟨m, hm⟩ : ∃ m, pollFuel cfg - k = m + 1 := ⟨pollFuel cfg - k - 1, by omega⟩
  rw [hm, Nat.zero_add, Nat.zero_add]
  exact pollLoop_step_success cfg refresh none m (k * cfg.minDelay) k
    (by simp [cancelFired])
    (by
      rintro ⟨hk0, hkt⟩
      rcases htime with rfl | h <;> omega)
    hke hks

/-- If the first `k` fetches are pending-classified and the `k`-th fetch
errors within budget, the poll fails at time `k * minDelay` with `k + 1`
fetches, propagating that error. -/
lemma poll_fetchError_at {α : Type} (cfg : PollConfig) (refresh : Nat → RefreshResult α)
    (k : Nat) (e : TfError) (hd : 0 < cfg.minDelay)
    (hpend : ∀ j, j < k → (refresh j).err = none ∧ (refresh j).label ∈ cfg.pending ∧
      ¬SuccessCond cfg (refresh j))
    (hke : (refresh k).err = some e)
    (htime : k = 0 ∨ k * cfg.minDelay < cfg.timeout) :
    poll cfg refresh none = .fetchError e (k * cfg.minDelay) (k + 1) := by
  have hfuel := pollFuel_ge cfg k hd htime
  have hskip := pollLoop_skip_pending cfg refresh k (pollFuel cfg) 0 0 (by omega)
    (fun j hj => by simpa using hpend j hj)
    (fun j hj hij => by
      rcases htime with rfl | h
      · omega
      · have hlt : j * cfg.minDelay < k * cfg.minDelay :=
          mul_lt_mul_of_pos_right hj hd
        omega)
  unfold poll
  rw [hskip]
  obtain ⟨m, hm⟩ : ∃ m, pollFuel cfg - k = m + 1 := ⟨pollFuel cfg - k - 1, by omega⟩
  rw [hm, Nat.zero_add, Nat.zero_add]
  exact pollLoop_step_fetchError cfg refresh none m (k * cfg.minDelay) k
    (by simp [cancelFired])
    (by
      rintro ⟨hk0, hkt⟩
      rcases htime with rfl | h <;> omega)
    hke

lemma findPrefixListsAux_shape (pages : List (Except AwsError (List PrefixList))) :
    ∀ acc, (∃ l, findPrefixListsAux acc pages = (some l, none)) ∨
      (∃ e, findPrefixListsAux acc pages = (none, some e)) := by
  induction pages with
  | nil => intro acc; exact Or.inl ⟨acc, rfl⟩
  | cons page rest ih =>
    intro acc
    cases page with
    | error e =>
      by_cases he : e = .invalidPrefixListIdNotFound <;>
        simp [findPrefixListsAux, he]
    | ok l => exact ih (acc ++ l)

lemma assertSingleValueResult_exactlyOne {α : Type} (xs : List α) :
    ExactlyOneOf (assertSingleValueResult xs) := by
  rcases xs with _ | ⟨a, _ | ⟨b, rest⟩⟩ <;>
    simp [assertSingleValueResult, ExactlyOneOf]

/-- C1: for every fetch result, the refresh function `statusMonitor` maps a
resource-not-found signal from `findMonitorByName` to the triple
(absent snapshot, empty label, no error), and maps a genuine fetch error to
the distinct triple (absent snapshot, empty label, forwarded non-nil error). -/
theorem c1_statusMonitor_notFound_vs_fetchError (resp : ApiResult GetMonitorOutput) :
    (resp = .err .resourceNotFoundException → statusMonitor resp = ⟨none, "", none⟩) ∧
    (∀ e : AwsError, e ≠ .resourceNotFoundException → resp = .err e →
      statusMonitor resp = ⟨none, "", some (.aws e)⟩ ∧ (statusMonitor resp).err ≠ none) := by
  refine ⟨?_, ?_⟩
  · rintro rfl
    rfl
  · rintro e he rfl
    refine ⟨?_, ?_⟩ <;>
      simp [statusMonitor, findMonitorByName, if_neg he, tfresourceNotFound]

/-- C1 witness: a not-found signal and a throttling error produce the two
distinct triples. -/
theorem c1_witness :
    statusMonitor (.err .resourceNotFoundException) = ⟨none, "", none⟩ ∧
    statusMonitor (.err (.other "throttled")) = ⟨none, "", some (.aws (.other "throttled"))⟩ :=
  ⟨(c1_statusMonitor_notFound_vs_fetchError (.err .resourceNotFoundException)).1 rfl,
    ((c1_statusMonitor_notFound_vs_fetchError (.err (.other "throttled"))).2
      (.other "throttled") (by decide) rfl).1⟩

/-- C7: if the caller's cancellation signal has already fired at the poll's
start, the poll returns a cancellation failure — a result distinct from a
timeout — without issuing any fetch. -/
theorem c7_cancelled_before_first_fetch {α : Type} (cfg : PollConfig)
    (refresh : Nat → RefreshResult α) (cancelAt : Option Nat)
    (h : cancelFired cancelAt 0 = true) :
    poll cfg refresh cancelAt = .cancelled 0 0 := by
  unfold poll
  exact pollLoop_step_cancelled cfg refresh cancelAt _ 0 0 h

/-- C7 witness: a signal firing at time 0 cancels a monitor-ready poll with
zero fetches issued. -/
theorem c7_witness :
    cancelFired (some 0) 0 = true ∧
    poll waitMonitorReadyConf (fun _ => statusMonitor (.err .resourceNotFoundException))
      (some 0) = .cancelled 0 0 :=
  ⟨by decide,
    c7_cancelled_before_first_fetch waitMonitorReadyConf
      (fun _ => statusMonitor (.err .resourceNotFoundException)) (some 0) (by decide)⟩

/-- C8: each find helper returns exactly one of a non-nil result with nil
error or a nil result with non-nil error; a remote not-found is mapped to a
structured `NotFoundError` and a nil response with nil error to an
empty-result error rather than success. -/
theorem c8_find_helpers_exactly_one (resp : ApiResult GetMonitorOutput) (id : String)
    (call : DescribeApplicationAssignmentInput →
      ApiResult DescribeApplicationAssignmentOutput)
    (pages : List (Except AwsError (List PrefixList))) :
    ExactlyOneOf (findMonitorByName resp) ∧
    ExactlyOneOf (findApplicationAssignmentByID id call) ∧
    ExactlyOneOf (FindPrefixList pages) ∧
    findMonitorByName (.err .resourceNotFoundException) =
      (none, some (.notFoundError .resourceNotFoundException)) ∧
    findMonitorByName (.ok none) = (none, some .emptyResult) := by
  refine ⟨?_, ?_, ?_, rfl, rfl⟩
  · rcases resp with o | e
    · rcases o with _ | o <;> simp [findMonitorByName, ExactlyOneOf]
    · by_cases he : e = .resourceNotFoundException <;>
        simp [findMonitorByName, he, ExactlyOneOf]
  · unfold findApplicationAssignmentByID
    cases hl : applicationAssignmentLookupInput id with
    | error e => simp [hl, ExactlyOneOf]
    | ok input =>
      cases hc : call input with
      | ok o => cases o <;> simp [hl, hc, ExactlyOneOf]
      | err e =>
        by_cases he : e = .resourceNotFoundException <;> simp [hl, hc, he, ExactlyOneOf]
  · unfold FindPrefixList
    rcases findPrefixListsAux_shape pages [] with ⟨l, hl⟩ | ⟨e, he⟩
    · rw [show FindPrefixLists pages = (some l, none) from hl]
      exact assertSingleValueResult_exactlyOne l
    · rw [show FindPrefixLists pages = (none, some e) from he]
      simp [ExactlyOneOf]

/-- C9: each Delete flow treats a remote already-gone signal as success with
no error diagnostics: `ResourceNotFoundException` for the monitor and the
application assignment, and `NotFoundException` or a pending-deletion
invalid-state error for the replica key. -/
theorem c9_delete_idempotent_on_absence (resp : Nat → ApiResult GetMonitorOutput)
    (waitErr : Option TfError) (msg : String) :
    monitorResourceDelete (.error .resourceNotFoundException) resp = [] ∧
    resourceReplicaKeyDelete (.error .notFoundException) waitErr = [] ∧
    (errMessageContains msg "is pending deletion" = true →
      resourceReplicaKeyDelete (.error (.kmsInvalidState msg)) waitErr = []) ∧
    applicationAssignmentDelete (.error .resourceNotFoundException) = [] := by
  refine ⟨rfl, rfl, ?_, rfl⟩
  intro h
  simp [resourceReplicaKeyDelete, isKMSInvalidStatePendingDeletion, h]

/-- C9 witness: the three flows at concrete already-gone responses, with a
concrete pending-deletion message. -/
theorem c9_witness :
    monitorResourceDelete (.error .resourceNotFoundException)
      (fun _ => .err .resourceNotFoundException) = [] ∧
    resourceReplicaKeyDelete (.error .notFoundException) none = [] ∧
    resourceReplicaKeyDelete
      (.error (.kmsInvalidState "Key mrk-1 is pending deletion.")) none = [] ∧
    applicationAssignmentDelete (.error .resourceNotFoundException) = [] := by
  have h := c9_delete_idempotent_on_absence (fun _ => .err .resourceNotFoundException)
    none "Key mrk-1 is pending deletion."
  exact ⟨h.1, h.2.1, h.2.2.1 (by decide), h.2.2.2⟩

/-- C3: for every configuration with disjoint pending and target sets, and
every fetch sequence that stays in the pending set and then reaches a target
label before the timeout elapses, the poll succeeds carrying the snapshot of
that final fetch. -/
theorem c3_reaches_target_success {α : Type} (cfg : PollConfig)
    (refresh : Nat → RefreshResult α) (k : Nat) (hd : 0 < cfg.minDelay)
    (hdisj : ∀ l ∈ cfg.pending, l ∉ cfg.target)
    (hpend : ∀ j, j < k → (refresh j).err = none ∧ (refresh j).label ∈ cfg.pending)
    (hke : (refresh k).err = none) (htar : (refresh k).label ∈ cfg.target)
    (htime : k = 0 ∨ k * cfg.minDelay < cfg.timeout) :
    poll cfg refresh none = .success (refresh k).snapshot (k * cfg.minDelay) (k + 1) := by
  have htne : cfg.target ≠ [] := List.ne_nil_of_mem htar
  refine poll_success_at cfg refresh k hd ?_ hke (Or.inl htar) htime
  intro j hj
  obtain ⟨hje, hjp⟩ := hpend j hj
  refine ⟨hje, hjp, ?_⟩
  rintro (hmem | ⟨hnil, _⟩)
  · exact hdisj _ hjp hmem
  · exact htne hnil

/-- C3 witness: `waitMonitorReady`'s configuration with two `PENDING` fetches
followed by an `ACTIVE` one succeeds after 20 seconds and 3 fetches with the
`ACTIVE` snapshot. -/
theorem c3_witness :
    poll waitMonitorReadyConf
      (fun i => statusMonitor
        (if i < 2 then .ok (some ⟨"m", "PENDING"⟩) else .ok (some ⟨"m", "ACTIVE"⟩)))
      none = .success (some ⟨"m", "ACTIVE"⟩) 20 3 := by
  have h := c3_reaches_target_success waitMonitorReadyConf
    (fun i => statusMonitor
      (if i < 2 then .ok (some ⟨"m", "PENDING"⟩) else .ok (some ⟨"m", "ACTIVE"⟩)))
    2 (by decide)
    (by
      intro l hl
      simp only [waitMonitorReadyConf, monitorStatePending, List.mem_singleton] at hl
      subst hl
      decide)
    (by
      intro j hj
      interval_cases j <;> exact ⟨rfl, by decide⟩)
    rfl (by decide) (Or.inr (by decide))
  exact h

/-- C2: for a deletion wait (empty target set), if every fetch before the
`k`-th returns a monitor with a pending-set state and the `k`-th fetch
reports the monitor as not found, `waitMonitorDeleted` returns success:
the absence produced by `statusMonitor` satisfies the empty target set. -/
theorem c2_absence_satisfies_empty_target (resp : Nat → ApiResult GetMonitorOutput)
    (k : Nat)
    (hpend : ∀ j, j < k → ∃ out, resp j = .ok (some out) ∧
      out.state ∈ waitMonitorDeletedConf.pending)
    (hnf : resp k = .err .resourceNotFoundException)
    (hk : k < 60) :
    waitMonitorDeleted resp none = .success none (k * 10) (k + 1) := by
  have hrk : statusMonitor (resp k) = ⟨none, "", none⟩ := by rw [hnf]; rfl
  have h := poll_success_at waitMonitorDeletedConf (fun i => statusMonitor (resp i)) k
    (by decide)
    (fun j hj => by
      obtain ⟨out, hj1, hj2⟩ := hpend j hj
      refine ⟨?_, ?_, ?_⟩
      · show (statusMonitor (resp j)).err = none
        rw [hj1]
        rfl
      · show (statusMonitor (resp j)).label ∈ waitMonitorDeletedConf.pending
        rw [hj1]
        exact hj2
      · show ¬SuccessCond waitMonitorDeletedConf (statusMonitor (resp j))
        rw [hj1]
        rintro (hmem | ⟨_, hsnap⟩)
        · exact (List.not_mem_nil _) hmem
        · exact Option.noConfusion hsnap)
    (by
      show (statusMonitor (resp k)).err = none
      rw [hrk])
    (by
      show SuccessCond waitMonitorDeletedConf (statusMonitor (resp k))
      rw [hrk]
      exact Or.inr ⟨rfl, rfl⟩)
    (Or.inr (by show k * 10 < 600; omega))
  refine h.trans ?_
  show PollResult.success (statusMonitor (resp k)).snapshot
    (k * waitMonitorDeletedConf.minDelay) (k + 1) = _
  rw [hrk]
  rfl

/-- C2 witness: one `DELETING` fetch, then a not-found on the second call,
yields success after 10 seconds and 2 fetches. -/
theorem c2_witness :
    waitMonitorDeleted
      (fun i => if i = 0 then .ok (some ⟨"m", "DELETING"⟩)
        else .err .resourceNotFoundException)
      none = .success none 10 2 := by
  have h := c2_absence_satisfies_empty_target
    (fun i => if i = 0 then .ok (some ⟨"m", "DELETING"⟩)
      else .err .resourceNotFoundException)
    1
    (by
      intro j hj
      interval_cases j
      exact ⟨⟨"m", "DELETING"⟩, rfl, by decide⟩)
    rfl (by omega)
  exact h

/-- C5: a genuine (non-not-found) fetch error at the `k`-th fetch is forwarded
by `statusMonitor` and is immediately fatal to the poll: the poll returns
that error with exactly `k + 1` fetches issued — the failing fetch is never
retried by the poller. -/
theorem c5_fetch_error_fatal (cfg : PollConfig) (resp : Nat → ApiResult GetMonitorOutput)
    (k : Nat) (e : AwsError) (hd : 0 < cfg.minDelay)
    (hpend : ∀ j, j < k → (statusMonitor (resp j)).err = none ∧
      (statusMonitor (resp j)).label ∈ cfg.pending ∧
      ¬SuccessCond cfg (statusMonitor (resp j)))
    (herr : resp k = .err e) (hrnf : e ≠ .resourceNotFoundException)
    (htime : k = 0 ∨ k * cfg.minDelay < cfg.timeout) :
    poll cfg (fun i => statusMonitor (resp i)) none =
      .fetchError (.aws e) (k * cfg.minDelay) (k + 1) := by
  have hrk : (statusMonitor (resp k)).err = some (.aws e) := by
    rw [herr]
    simp [statusMonitor, findMonitorByName, if_neg hrnf, tfresourceNotFound]
  exact poll_fetchError_at cfg (fun i => statusMonitor (resp i)) k (.aws e) hd
    hpend hrk htime

/-- C5 witness: one `PENDING` fetch, then an internal error on the second
call, fails the monitor-ready poll at once with that error after 2 fetches. -/
theorem c5_witness :
    poll waitMonitorReadyConf
      (fun i => statusMonitor
        (if i = 0 then .ok (some ⟨"m", "PENDING"⟩) else .err (.other "internal")))
      none = .fetchError (.aws (.other "internal")) 10 2 := by
  have h := c5_fetch_error_fatal waitMonitorReadyConf
    (fun i => if i = 0 then .ok (some ⟨"m", "PENDING"⟩) else .err (.other "internal"))
    1 (.other "internal") (by decide)
    (by
      intro j hj
      interval_cases j
      exact ⟨rfl, by decide, by decide⟩)
    rfl (by decide) (Or.inr (by decide))
  exact h

/-- C6: if every fetch returns a pending-set label, the poll ends in a
timeout whose return time is no earlier than the timeout and no later than
the timeout plus the minimum delay. -/
theorem c6_always_pending_times_out {α : Type} (cfg : PollConfig)
    (refresh : Nat → RefreshResult α) (hd : 0 < cfg.minDelay)
    (hall : ∀ j, (refresh j).err = none ∧ (refresh j).label ∈ cfg.pending ∧
      ¬SuccessCond cfg (refresh j)) :
    ∃ T n, poll cfg refresh none = .timedOut T n ∧
      cfg.timeout ≤ T ∧ T ≤ cfg.timeout + cfg.minDelay := by
  unfold poll pollFuel
  have hmax : max cfg.minDelay 1 = cfg.minDelay := max_eq_left (by omega)
  rw [hmax]
  apply pollLoop_all_pending_times_out cfg refresh hall
    (cfg.timeout / cfg.minDelay + 2) 0 0 (Or.inr ⟨rfl, rfl⟩)
  have hdm := Nat.div_add_mod cfg.timeout cfg.minDelay
  have hmod : cfg.timeout % cfg.minDelay < cfg.minDelay := Nat.mod_lt _ hd
  have hmc : cfg.minDelay * (cfg.timeout / cfg.minDelay) =
      cfg.timeout / cfg.minDelay * cfg.minDelay := Nat.mul_comm _ _
  rw [hmc] at hdm
  rw [Nat.add_mul]
  omega

/-- C6 witness: `waitMonitorReady`'s configuration (timeout 600s, minimum
delay 10s) with a monitor stuck in `PENDING` times out between 600s and
610s. -/
theorem c6_witness :
    ∃ T n, poll waitMonitorReadyConf
      (fun _ => statusMonitor (.ok (some ⟨"m", "PENDING"⟩))) none = .timedOut T n ∧
      600 ≤ T ∧ T ≤ 610 := by
  have h := c6_always_pending_times_out waitMonitorReadyConf
    (fun _ => statusMonitor (.ok (some ⟨"m", "PENDING"⟩))) (by decide)
    (by
      intro j
      refine ⟨rfl, ?_, ?_⟩
      · show (statusMonitor (.ok (some ⟨"m", "PENDING"⟩))).label ∈
          waitMonitorReadyConf.pending
        decide
      · show ¬SuccessCond waitMonitorReadyConf
          (statusMonitor (.ok (some ⟨"m", "PENDING"⟩)))
        decide)
  exact h

/-- C4 counterexample: in the deletion wait, the first fetch reports the
monitor as not found, so its status label is the empty string — a label in
neither the pending set nor the (empty) target set — yet the poll returns
success by the absence convention, not an unexpected-state error. -/
theorem c4_counterexample :
    ("" ∉ waitMonitorDeletedConf.pending ∧ "" ∉ waitMonitorDeletedConf.target) ∧
    waitMonitorDeleted (fun _ => .err .resourceNotFoundException) none =
      .success none 0 1 ∧
    waitMonitorDeleted (fun _ => .err .resourceNotFoundException) none ≠
      .unrecognized "" 0 1 := by
  decide

/-- C4 (amended): if the first fetch completes without error, its label is in
neither the pending set nor the target set, and it does not meet the
absence-with-empty-target success convention, the poll returns an
unexpected-state error on the very first poll, with exactly one fetch and no
retries. -/
theorem c4_amended_unrecognized_first_poll {α : Type} (cfg : PollConfig)
    (refresh : Nat → RefreshResult α)
    (he : (refresh 0).err = none)
    (hpt : (refresh 0).label ∉ cfg.pending)
    (htt : (refresh 0).label ∉ cfg.target)
    (habs : ¬(cfg.target = [] ∧ (refresh 0).snapshot = none)) :
    poll cfg refresh none = .unrecognized (refresh 0).label 0 1 := by
  unfold poll
  have hsc : ¬SuccessCond cfg (refresh 0) := by
    rintro (hmem | habs2)
    · exact htt hmem
    · exact habs habs2
  exact pollLoop_step_unrecognized cfg refresh none _ 0 0 (by simp [cancelFired])
    (by simp) he hsc hpt

/-- C4 witness: a monitor whose state is outside both sets of
`waitMonitorReady`'s configuration fails as unrecognized on the first poll. -/
theorem c4_witness :
    poll waitMonitorReadyConf
      (fun _ => statusMonitor (.ok (some ⟨"m", "WEIRD"⟩))) none =
      .unrecognized "WEIRD" 0 1 := by
  have h := c4_amended_unrecognized_first_poll waitMonitorReadyConf
    (fun _ => statusMonitor (.ok (some ⟨"m", "WEIRD"⟩)))
    rfl
    (by
      show (statusMonitor (.ok (some ⟨"m", "WEIRD"⟩))).label ∉
        waitMonitorReadyConf.pending
      decide)
    (by
      show (statusMonitor (.ok (some ⟨"m", "WEIRD"⟩))).label ∉
        waitMonitorReadyConf.target
      decide)
    (by
      show ¬(waitMonitorReadyConf.target = [] ∧
        (statusMonitor (.ok (some ⟨"m", "WEIRD"⟩))).snapshot = none)
      decide)
  exact h

/-- C10 counterexample: an application ARN containing the composite-ID
separator is accepted by ARN validation, but flattening then expanding it
does not return the original parts — the expansion fails on the part count. -/
theorem c10_counterexample :
    expandResourceId
      (applicationAssignmentCreateID "arn:aws:sso::123456789012:application/app,x"
        "p-1" "USER")
      applicationAssignmentIDPartCount false ≠
      .ok ["arn:aws:sso::123456789012:application/app,x", "p-1", "USER"] := by
  have heq : expandResourceId
      (applicationAssignmentCreateID "arn:aws:sso::123456789012:application/app,x"
        "p-1" "USER")
      applicationAssignmentIDPartCount false =
      .error (.aws (.other "unexpected format for ID, wrong number of parts")) := rfl
  rw [heq]
  simp

/-- C10 (amended): for every triple of nonempty parts none of which contains
the composite-ID separator, flattening into the composite ID and expanding
with the same part count yields the original three parts in order, and the
lookup input `findApplicationAssignmentByID` derives is exactly the triple
Create named. -/
theorem c10_amended_id_roundTrip (a p t : String)
    (ha : a ≠ "" ∧ ',' ∉ a.data) (hp : p ≠ "" ∧ ',' ∉ p.data)
    (ht : t ≠ "" ∧ ',' ∉ t.data) :
    expandResourceId (applicationAssignmentCreateID a p t)
      applicationAssignmentIDPartCount false = .ok [a, p, t] ∧
    applicationAssignmentLookupInput (applicationAssignmentCreateID a p t) =
      .ok ⟨a, p, t⟩ := by
  have hflat : applicationAssignmentCreateID a p t =
      ⟨joinWithChar ',' [a.data, p.data, t.data]⟩ := by
    unfold applicationAssignmentCreateID flattenResourceId
    simp [applicationAssignmentIDPartCount, ha.1, hp.1, ht.1]
  have hsplit : splitOnChar ',' (joinWithChar ',' [a.data, p.data, t.data]) =
      [a.data, p.data, t.data] := by
    refine splitOnChar_joinWithChar ',' [a.data, p.data, t.data] (by simp) ?_
    intro q hq
    simp only [List.mem_cons, List.not_mem_nil, or_false] at hq
    rcases hq with rfl | rfl | rfl
    · exact ha.2
    · exact hp.2
    · exact ht.2
  have hexp : expandResourceId (applicationAssignmentCreateID a p t)
      applicationAssignmentIDPartCount false = .ok [a, p, t] := by
    rw [hflat]
    unfold expandResourceId
    have hdata : (String.mk (joinWithChar ',' [a.data, p.data, t.data])).data =
        joinWithChar ',' [a.data, p.data, t.data] := rfl
    rw [hdata, hsplit]
    have hmap : [a.data, p.data, t.data].map String.mk = [a, p, t] := rfl
    rw [hmap]
    simp [applicationAssignmentIDPartCount, ha.1, hp.1, ht.1]
  refine ⟨hexp, ?_⟩
  unfold applicationAssignmentLookupInput
  rw [hexp]
  rfl

/-- C10 witness: a realistic comma-free triple round-trips and the derived
lookup input matches. -/
theorem c10_witness :
    expandResourceId
      (applicationAssignmentCreateID "arn:aws:sso::123456789012:application/apl-x"
        "user-1" "USER")
      applicationAssignmentIDPartCount false =
      .ok ["arn:aws:sso::123456789012:application/apl-x", "user-1", "USER"] ∧
    applicationAssignmentLookupInput
      (applicationAssignmentCreateID "arn:aws:sso::123456789012:application/apl-x"
        "user-1" "USER") =
      .ok ⟨"arn:aws:sso::123456789012:application/apl-x", "user-1", "USER"⟩ :=
  c10_amended_id_roundTrip "arn:aws:sso::123456789012:application/apl-x" "user-1" "USER"
    ⟨by decide, by decide⟩ ⟨by decide, by decide⟩ ⟨by decide, by decide⟩

end AwsProvider
